import Mathlib

/-!
Verification of the printf-style ("%"-directive) formatting engine in
`src/vm/src/cformat.rs`: the specifier grammar and parser, the rendering
functions (`fill_string`, `format_string_with_precision`, `format_bytes`,
`format_number`, `format_float`), and the argument-binding driver
(`CFormatString::format` / `CFormatBytes::format`).

The embedding is shallow: each Rust function becomes a Lean function of the
same name over explicit data. Machine integers are modelled as `Int`/`Nat`
with the platform taken to be 64-bit (`isize` = signed 64-bit, `usize` =
unsigned 64-bit); the `as usize` cast and `usize` subtraction wrap modulo
`2 ^ 64` exactly as the machine operations do. Host-runtime collaborators
(Python objects, `vm.to_str`, dict lookup, `int::try_to_primitive`) are
modelled from the spec and marked as such.
-/

/-! ## Data model (`cformat.rs` lines 15-124) -/

inductive CFormatErrorType where
  | UnmatchedKeyParentheses : CFormatErrorType
  | MissingModuloSign : CFormatErrorType
  | UnsupportedFormatChar : Char → CFormatErrorType
  | IncompleteFormat : CFormatErrorType
  | IntTooBig : CFormatErrorType
deriving DecidableEq

/-- Embeds `type ParsingError = (CFormatErrorType, usize)` -/
abbrev ParsingError := CFormatErrorType × Nat

/-- Embeds `struct CFormatError { typ, index }` -/
structure CFormatError where
  typ : CFormatErrorType
  index : Nat
deriving DecidableEq

inductive CFormatPreconversor where
  | Repr : CFormatPreconversor
  | Str : CFormatPreconversor
  | Ascii : CFormatPreconversor
  | Bytes : CFormatPreconversor
deriving DecidableEq

inductive CFormatCase where
  | Lowercase : CFormatCase
  | Uppercase : CFormatCase
deriving DecidableEq

inductive CNumberType where
  | Decimal : CNumberType
  | Octal : CNumberType
  | Hex : CFormatCase → CNumberType
deriving DecidableEq

inductive CFloatType where
  | Exponent : CFormatCase → CFloatType
  | PointDecimal : CFloatType
  | General : CFormatCase → CFloatType
deriving DecidableEq

inductive CFormatType where
  | Number : CNumberType → CFormatType
  | Float : CFloatType → CFormatType
  | Character : CFormatType
  | String : CFormatPreconversor → CFormatType
deriving DecidableEq

/-- The `bitflags! CConversionFlags` bit set, as five independent booleans. -/
structure CConversionFlags where
  alternate_form : Bool
  zero_pad : Bool
  left_adjust : Bool
  blank_sign : Bool
  sign_char : Bool
deriving DecidableEq

def CConversionFlags.empty : CConversionFlags :=
  ⟨false, false, false, false, false⟩

/-- Embeds `CConversionFlags::sign_string` -/
def CConversionFlags.sign_string (f : CConversionFlags) : String :=
  if f.sign_char then "+" else if f.blank_sign then " " else ""

inductive CFormatQuantity where
  | Amount : Nat → CFormatQuantity
  | FromValuesTuple : CFormatQuantity
deriving DecidableEq

structure CFormatSpec where
  mapping_key : Option String
  flags : CConversionFlags
  min_field_width : Option CFormatQuantity
  precision : Option CFormatQuantity
  format_type : CFormatType
  format_char : Char
deriving DecidableEq

/-! ## Machine-integer model (64-bit platform) -/

def isizeMax : Int := 2 ^ 63 - 1

def isizeMin : Int := -(2 ^ 63)

/-- The `as usize` cast of an `isize` value: two's-complement
reinterpretation, i.e. reduction modulo `2 ^ 64`. -/
def usizeOfInt (i : Int) : Nat := (i % (2 ^ 64)).toNat

/-- Embeds `isize::checked_mul` restricted to the `isize` range. -/
def checkedMul (a b : Int) : Option Int :=
  if a * b < isizeMin ∨ isizeMax < a * b then none else some (a * b)

/-- Embeds `isize::checked_add` restricted to the `isize` range. -/
def checkedAdd (a b : Int) : Option Int :=
  if a + b < isizeMin ∨ isizeMax < a + b then none else some (a + b)

/-- Embeds `usize` subtraction `a - b` as the machine performs it: modulo `2 ^ 64`
(in a release build it wraps; in a debug build the underflow panics).
Valid for `a, b < 2 ^ 64`. -/
def usizeSub (a b : Nat) : Nat := (a + 2 ^ 64 - b) % 2 ^ 64

/-! ## Renderer (`CFormatSpec` methods, lines 153-358) -/

/-- Embeds `CFormatSpec::compute_fill_string`: `fill_chars_needed` copies of
`fill_char`. -/
def CFormatSpec.compute_fill_string (fill_char : Char) (fill_chars_needed : Nat) : String :=
  String.mk (List.replicate fill_chars_needed fill_char)

/-- Embeds `CFormatSpec::fill_string` (lines 159-187). `String.length` counts
Unicode scalar values, exactly as `string.chars().count()` does. -/
def CFormatSpec.fill_string (spec : CFormatSpec) (string : String) (fill_char : Char)
    (num_prefix_chars : Option Nat) : String :=
  let num_chars := string.length + num_prefix_chars.getD 0
  let width := match spec.min_field_width with
    | some (CFormatQuantity.Amount width) => max width num_chars
    | _ => num_chars
  let fill_string := CFormatSpec.compute_fill_string fill_char (width - num_chars)
  if !fill_string.isEmpty then
    if spec.flags.left_adjust then string ++ fill_string else fill_string ++ string
  else string

/-- Embeds `CFormatSpec::format_string_with_precision` (lines 189-202): truncate to
`precision` scalar values if longer, then fill with spaces. -/
def CFormatSpec.format_string_with_precision (spec : CFormatSpec) (string : String)
    (precision : Option CFormatQuantity) : String :=
  let string := match precision with
    | some (CFormatQuantity.Amount p) =>
      if string.length > p then String.mk (string.toList.take p) else string
    | _ => string
  spec.fill_string string ' ' none

/-- Embeds `CFormatSpec::format_string` -/
def CFormatSpec.format_string (spec : CFormatSpec) (string : String) : String :=
  spec.format_string_with_precision string spec.precision

/-- Embeds `CFormatSpec::format_char` -/
def CFormatSpec.format_char_render (spec : CFormatSpec) (ch : Char) : String :=
  spec.format_string_with_precision (String.mk [ch]) (some (CFormatQuantity.Amount 1))

/-- Embeds `CFormatSpec::format_bytes` (lines 212-232). Bytes are `Nat` values,
the fill byte is `0x20` = 32. The width fill count is
`cmp::max(0, width - bytes.len())` where the subtraction is on `usize`,
so it wraps modulo `2 ^ 64` when `width < bytes.len()` (and the
`cmp::max(0, _)` is a no-op on an unsigned type). -/
def CFormatSpec.format_bytes (spec : CFormatSpec) (bytes : List Nat) : List Nat :=
  let bytes := match spec.precision with
    | some (CFormatQuantity.Amount precision) => bytes.take (min bytes.length precision)
    | _ => bytes
  match spec.min_field_width with
  | some (CFormatQuantity.Amount width) =>
    let fill := max 0 (usizeSub width bytes.length)
    if spec.flags.left_adjust then bytes ++ List.replicate fill 32
    else List.replicate fill 32 ++ bytes
  | _ => bytes

/-- Embeds `num_bigint::BigInt::to_str_radix` for a nonnegative magnitude: the digit
string in the given radix, letters lowercase. -/
def toStrRadix (radix : Nat) (n : Nat) : String := String.mk (Nat.toDigits radix n)

/-- Embeds `CFormatSpec::format_number` (lines 234-289) over `Int` (= `BigInt`). -/
def CFormatSpec.format_number (spec : CFormatSpec) (num : Int) : String :=
  let magnitude := num.natAbs
  let radix_mark := if spec.flags.alternate_form then
      match spec.format_type with
      | CFormatType.Number CNumberType.Octal => "0o"
      | CFormatType.Number (CNumberType.Hex CFormatCase.Lowercase) => "0x"
      | CFormatType.Number (CNumberType.Hex CFormatCase.Uppercase) => "0X"
      | _ => ""
    else ""
  let magnitude_string := match spec.format_type with
    | CFormatType.Number CNumberType.Decimal => toStrRadix 10 magnitude
    | CFormatType.Number CNumberType.Octal => toStrRadix 8 magnitude
    | CFormatType.Number (CNumberType.Hex CFormatCase.Lowercase) => toStrRadix 16 magnitude
    | CFormatType.Number (CNumberType.Hex CFormatCase.Uppercase) =>
      String.mk ((Nat.toDigits 16 magnitude).map Char.toUpper)
    | _ => ""
  let sign_string := if num < 0 then "-" else spec.flags.sign_string
  if spec.flags.zero_pad then
    let fill_char := if !spec.flags.left_adjust then '0' else ' '
    let signed_mark := sign_string ++ radix_mark
    signed_mark ++ spec.fill_string magnitude_string fill_char (some signed_mark.length)
  else
    spec.fill_string (sign_string ++ radix_mark ++ magnitude_string) ' ' none

/-- Embeds `CFormatSpec::format_float` (lines 309-358). The floating-point value and
the host float-to-decimal routine are abstracted: `signPositive` models
`num.is_sign_positive()`, `pointMag p` models the fixed-point rendering
`format!("\x7b:.*\x7d", p, num.abs())`, and `expMag p` models the exponent
rendering built from `normalize_float(num.abs())`. The `General` branch is
literal source code. The final wildcard arm is `unreachable!()` in the
source (`format_float` is only invoked on `Float` specs). -/
def CFormatSpec.format_float (spec : CFormatSpec) (signPositive : Bool)
    (pointMag : Nat → String) (expMag : Nat → String) : Except String String :=
  let sign_string := if signPositive then spec.flags.sign_string else "-"
  let magnitudeE : Except String String := match spec.format_type with
    | CFormatType.Float CFloatType.PointDecimal =>
      let precision := match spec.precision with
        | some (CFormatQuantity.Amount p) => p
        | _ => 6
      Except.ok (pointMag precision)
    | CFormatType.Float (CFloatType.Exponent _) =>
      let precision := match spec.precision with
        | some (CFormatQuantity.Amount p) => p
        | _ => 6
      Except.ok (expMag precision)
    | CFormatType.Float (CFloatType.General _) =>
      Except.error "Not yet implemented for %g and %G"
    | _ => Except.error "unreachable"
  match magnitudeE with
  | Except.error e => Except.error e
  | Except.ok magnitude_string =>
    Except.ok (if spec.flags.zero_pad then
        let fill_char := if !spec.flags.left_adjust then '0' else ' '
        sign_string ++ spec.fill_string magnitude_string fill_char (some sign_string.length)
      else spec.fill_string (sign_string ++ magnitude_string) ' ' none)

/-! ## Parser (lines 875-1073)

The Rust parser consumes a `Peekable<Enumerate<Chars>>`; the embedding
threads the remaining stream explicitly as a list of `(offset, char)`
pairs. Each function returns the value it produced together with the
unconsumed remainder. -/

abbrev CStream := List (Nat × Char)

/-- Embeds `parse_text_inside_parentheses` (lines 956-981). `counter` is the `i32`
depth counter starting at 1; `acc` accumulates `contained_text`. Returns
`none` when the input ends before the depth returns to 0. -/
def parse_text_inside_parentheses : Int → String → CStream → Option (String × CStream)
  | _, _, [] => none
  | counter, acc, (_, c) :: rest =>
    let counter := match c with
      | '(' => counter + 1
      | ')' => counter - 1
      | _ => counter
    if counter > 0 then parse_text_inside_parentheses counter (acc.push c) rest
    else some (acc, rest)

/-- Embeds `parse_spec_mapping_key` (lines 983-996). -/
def parse_spec_mapping_key : CStream → Except ParsingError (Option String × CStream)
  | (index, '(') :: rest =>
    match parse_text_inside_parentheses 1 "" rest with
    | some (key, rest') => Except.ok (some key, rest')
    | none => Except.error (CFormatErrorType.UnmatchedKeyParentheses, index)
  | s => Except.ok (none, s)

/-- Embeds `parse_flags` (lines 998-1013): greedily OR flag characters into the set. -/
def parse_flags : CConversionFlags → CStream → CConversionFlags × CStream
  | flags, [] => (flags, [])
  | flags, (index, c) :: rest =>
    if c = '#' then parse_flags { flags with alternate_form := true } rest
    else if c = '0' then parse_flags { flags with zero_pad := true } rest
    else if c = '-' then parse_flags { flags with left_adjust := true } rest
    else if c = ' ' then parse_flags { flags with blank_sign := true } rest
    else if c = '+' then parse_flags { flags with sign_char := true } rest
    else (flags, (index, c) :: rest)

/-- The digit-accumulation loop inside `parse_quantity` (lines 927-937):
`num` is the `isize` accumulator; each further digit is folded in with
`checked_mul` / `checked_add`, failing with `IntTooBig` at the offset of the
overflowing digit. -/
def parse_quantity_digits : Int → CStream → Except ParsingError (Int × CStream)
  | num, [] => Except.ok (num, [])
  | num, (index, c) :: rest =>
    if c.isDigit then
      match checkedMul num 10 with
      | none => Except.error (CFormatErrorType.IntTooBig, index)
      | some m =>
        match checkedAdd m ((c.toNat - 48 : Nat) : Int) with
        | none => Except.error (CFormatErrorType.IntTooBig, index)
        | some num' => parse_quantity_digits num' rest
    else Except.ok (num, (index, c) :: rest)

/-- Embeds `parse_quantity` (lines 916-942). A `*` yields the dynamic marker; a run
of digits yields a fixed amount (cast `as usize` at the end); anything else
yields `none`. -/
def parse_quantity : CStream → Except ParsingError (Option CFormatQuantity × CStream)
  | [] => Except.ok (none, [])
  | (index, c) :: rest =>
    if c = '*' then Except.ok (some CFormatQuantity.FromValuesTuple, rest)
    else if c.isDigit then
      match parse_quantity_digits ((c.toNat - 48 : Nat) : Int) rest with
      | Except.error e => Except.error e
      | Except.ok (num, rest') =>
        Except.ok (some (CFormatQuantity.Amount (usizeOfInt num)), rest')
    else Except.ok (none, (index, c) :: rest)

/-- Embeds `parse_precision` (lines 944-954). -/
def parse_precision : CStream → Except ParsingError (Option CFormatQuantity × CStream)
  | (_, '.') :: rest => parse_quantity rest
  | s => Except.ok (none, s)

/-- Embeds `consume_length` (lines 1015-1022). -/
def consume_length : CStream → CStream
  | (index, c) :: rest =>
    if c = 'h' ∨ c = 'l' ∨ c = 'L' then rest else (index, c) :: rest
  | [] => []

/-- Embeds `parse_format_type` (lines 1024-1060). On an exhausted stream the Rust
code reports `IncompleteFormat` at `iter.peek().map(|x| x.0).unwrap_or(0)`;
after `iter.next()` returned `None`, `peek()` is also `None`, so the
reported offset is always `0`. -/
def parse_format_type : CStream → Except ParsingError ((CFormatType × Char) × CStream)
  | [] => Except.error (CFormatErrorType.IncompleteFormat, 0)
  | (index, c) :: rest =>
    let t : Option CFormatType :=
      if c = 'd' ∨ c = 'i' ∨ c = 'u' then some (CFormatType.Number CNumberType.Decimal)
      else if c = 'o' then some (CFormatType.Number CNumberType.Octal)
      else if c = 'x' then some (CFormatType.Number (CNumberType.Hex CFormatCase.Lowercase))
      else if c = 'X' then some (CFormatType.Number (CNumberType.Hex CFormatCase.Uppercase))
      else if c = 'e' then some (CFormatType.Float (CFloatType.Exponent CFormatCase.Lowercase))
      else if c = 'E' then some (CFormatType.Float (CFloatType.Exponent CFormatCase.Uppercase))
      else if c = 'f' then some (CFormatType.Float CFloatType.PointDecimal)
      else if c = 'F' then some (CFormatType.Float CFloatType.PointDecimal)
      else if c = 'g' then some (CFormatType.Float (CFloatType.General CFormatCase.Lowercase))
      else if c = 'G' then some (CFormatType.Float (CFloatType.General CFormatCase.Uppercase))
      else if c = 'c' then some CFormatType.Character
      else if c = 'r' then some (CFormatType.String CFormatPreconversor.Repr)
      else if c = 's' then some (CFormatType.String CFormatPreconversor.Str)
      else if c = 'b' then some (CFormatType.String CFormatPreconversor.Bytes)
      else if c = 'a' then some (CFormatType.String CFormatPreconversor.Ascii)
      else none
    match t with
    | some format_type => Except.ok ((format_type, c), rest)
    | none => Except.error (CFormatErrorType.UnsupportedFormatChar c, index)

/-- Embeds `CFormatSpec::parse` (lines 127-151): mapping key, flags, width,
precision, length modifier, conversion character, in that order; float
conversions default the precision to `Amount 6` when none was parsed. -/
def CFormatSpec.parse (s : CStream) : Except ParsingError (CFormatSpec × CStream) :=
  match parse_spec_mapping_key s with
  | Except.error e => Except.error e
  | Except.ok (mapping_key, s1) =>
    let (flags, s2) := parse_flags CConversionFlags.empty s1
    match parse_quantity s2 with
    | Except.error e => Except.error e
    | Except.ok (min_field_width, s3) =>
      match parse_precision s3 with
      | Except.error e => Except.error e
      | Except.ok (precision0, s4) =>
        let s5 := consume_length s4
        match parse_format_type s5 with
        | Except.error e => Except.error e
        | Except.ok ((format_type, format_char), s6) =>
          let precision := if precision0.isSome then precision0
            else match format_type with
              | CFormatType.Float _ => some (CFormatQuantity.Amount 6)
              | _ => none
          Except.ok ({ mapping_key := mapping_key, flags := flags,
                       min_field_width := min_field_width, precision := precision,
                       format_type := format_type, format_char := format_char }, s6)

inductive CFormatPart where
  | Literal : String → CFormatPart
  | Spec : CFormatSpec → CFormatPart
deriving DecidableEq

/-- Embeds `CFormatPart::is_specifier` -/
def CFormatPart.is_specifier : CFormatPart → Bool
  | CFormatPart.Spec _ => true
  | _ => false

/-- Embeds `CFormatPart::has_key` -/
def CFormatPart.has_key : CFormatPart → Bool
  | CFormatPart.Spec s => s.mapping_key.isSome
  | _ => false

/-! ### Stream-length lemmas for termination of the main parse loop -/

theorem parse_text_inside_parentheses_length :
    ∀ (s : CStream) (counter : Int) (acc key : String) (r : CStream),
      parse_text_inside_parentheses counter acc s = some (key, r) → r.length ≤ s.length := by
  intro s
  induction s with
  | nil => intro counter acc key r h; simp [parse_text_inside_parentheses] at h
  | cons p rest ih =>
    intro counter acc key r h
    obtain ⟨index, c⟩ := p
    simp only [parse_text_inside_parentheses] at h
    split at h
    · exact Nat.le_trans (ih _ _ _ _ h) (Nat.le_succ _)
    · simp only [Option.some.injEq, Prod.mk.injEq] at h
      obtain ⟨-, hr⟩ := h
      subst hr
      exact Nat.le_succ _

theorem parse_spec_mapping_key_length {s : CStream} {k : Option String} {r : CStream}
    (h : parse_spec_mapping_key s = Except.ok (k, r)) : r.length ≤ s.length := by
  match s with
  | [] =>
    simp only [parse_spec_mapping_key, Except.ok.injEq, Prod.mk.injEq] at h
    obtain ⟨-, hr⟩ := h
    subst hr
    exact Nat.le_refl _
  | (index, c) :: rest =>
    by_cases hc : c = '('
    · subst hc
      simp only [parse_spec_mapping_key] at h
      split at h
      · rename_i key r' heq
        simp only [Except.ok.injEq, Prod.mk.injEq] at h
        obtain ⟨hk, hr⟩ := h
        subst hr
        exact Nat.le_trans (parse_text_inside_parentheses_length _ _ _ _ _ heq) (Nat.le_succ _)
      · simp at h
    · rw [show parse_spec_mapping_key ((index, c) :: rest) = Except.ok (none, (index, c) :: rest)
          from by unfold parse_spec_mapping_key; split <;> simp_all] at h
      simp only [Except.ok.injEq, Prod.mk.injEq] at h
      obtain ⟨-, hr⟩ := h
      subst hr
      exact Nat.le_refl _

theorem parse_flags_length :
    ∀ (s : CStream) (f f' : CConversionFlags) (r : CStream),
      parse_flags f s = (f', r) → r.length ≤ s.length := by
  intro s
  induction s with
  | nil =>
    intro f f' r h
    simp only [parse_flags, Prod.mk.injEq] at h
    obtain ⟨-, hr⟩ := h
    subst hr
    exact Nat.le_refl _
  | cons p rest ih =>
    intro f f' r h
    obtain ⟨index, c⟩ := p
    simp only [parse_flags] at h
    split at h
    · exact Nat.le_trans (ih _ _ _ h) (Nat.le_succ _)
    · split at h
      · exact Nat.le_trans (ih _ _ _ h) (Nat.le_succ _)
      · split at h
        · exact Nat.le_trans (ih _ _ _ h) (Nat.le_succ _)
        · split at h
          · exact Nat.le_trans (ih _ _ _ h) (Nat.le_succ _)
          · split at h
            · exact Nat.le_trans (ih _ _ _ h) (Nat.le_succ _)
            · simp only [Prod.mk.injEq] at h
              obtain ⟨-, hr⟩ := h
              subst hr
              exact Nat.le_refl _

theorem parse_quantity_digits_length :
    ∀ (s : CStream) (num num' : Int) (r : CStream),
      parse_quantity_digits num s = Except.ok (num', r) → r.length ≤ s.length := by
  intro s
  induction s with
  | nil =>
    intro num num' r h
    simp only [parse_quantity_digits, Except.ok.injEq, Prod.mk.injEq] at h
    obtain ⟨-, hr⟩ := h
    subst hr
    exact Nat.le_refl _
  | cons p rest ih =>
    intro num num' r h
    obtain ⟨index, c⟩ := p
    simp only [parse_quantity_digits] at h
    split at h
    · split at h
      · exact absurd h (by simp)
      · split at h
        · exact absurd h (by simp)
        · exact Nat.le_trans (ih _ _ _ h) (Nat.le_succ _)
    · simp only [Except.ok.injEq, Prod.mk.injEq] at h
      obtain ⟨-, hr⟩ := h
      subst hr
      exact Nat.le_refl _

theorem parse_quantity_length {s : CStream} {q : Option CFormatQuantity} {r : CStream}
    (h : parse_quantity s = Except.ok (q, r)) : r.length ≤ s.length := by
  match s with
  | [] =>
    simp only [parse_quantity, Except.ok.injEq, Prod.mk.injEq] at h
    obtain ⟨-, hr⟩ := h
    subst hr
    exact Nat.le_refl _
  | (index, c) :: rest =>
    simp only [parse_quantity] at h
    split at h
    · simp only [Except.ok.injEq, Prod.mk.injEq] at h
      obtain ⟨-, hr⟩ := h
      subst hr
      exact Nat.le_succ _
    · split at h
      · split at h
        · exact absurd h (by simp)
        · rename_i num rest' heq
          simp only [Except.ok.injEq, Prod.mk.injEq] at h
          obtain ⟨-, hr⟩ := h
          subst hr
          exact Nat.le_trans (parse_quantity_digits_length _ _ _ _ heq) (Nat.le_succ _)
      · simp only [Except.ok.injEq, Prod.mk.injEq] at h
        obtain ⟨-, hr⟩ := h
        subst hr
        exact Nat.le_refl _

theorem parse_precision_length {s : CStream} {q : Option CFormatQuantity} {r : CStream}
    (h : parse_precision s = Except.ok (q, r)) : r.length ≤ s.length := by
  match s with
  | [] =>
    simp only [parse_precision, Except.ok.injEq, Prod.mk.injEq] at h
    obtain ⟨-, hr⟩ := h
    subst hr
    exact Nat.le_refl _
  | (index, c) :: rest =>
    by_cases hc : c = '.'
    · subst hc
      simp only [parse_precision] at h
      exact Nat.le_trans (parse_quantity_length h) (Nat.le_succ _)
    · rw [show parse_precision ((index, c) :: rest) = Except.ok (none, (index, c) :: rest)
          from by unfold parse_precision; split <;> simp_all] at h
      simp only [Except.ok.injEq, Prod.mk.injEq] at h
      obtain ⟨-, hr⟩ := h
      subst hr
      exact Nat.le_refl _

theorem consume_length_length (s : CStream) : (consume_length s).length ≤ s.length := by
  match s with
  | [] => simp [consume_length]
  | (index, c) :: rest =>
    simp only [consume_length]
    split
    · exact Nat.le_succ _
    · exact Nat.le_refl _

theorem parse_format_type_length {s : CStream} {t : CFormatType × Char} {r : CStream}
    (h : parse_format_type s = Except.ok (t, r)) : r.length ≤ s.length := by
  match s with
  | [] => exact absurd h (by simp [parse_format_type])
  | (index, c) :: rest =>
    simp only [parse_format_type] at h
    split at h
    · simp only [Except.ok.injEq, Prod.mk.injEq] at h
      obtain ⟨-, hr⟩ := h
      subst hr
      exact Nat.le_succ _
    · exact absurd h (by simp)

theorem CFormatSpec.parse_length {s : CStream} {spec : CFormatSpec} {r : CStream}
    (h : CFormatSpec.parse s = Except.ok (spec, r)) : r.length ≤ s.length := by
  unfold CFormatSpec.parse at h
  split at h
  · exact absurd h (by simp)
  rename_i k s1 hk
  have h1 : s1.length ≤ s.length := parse_spec_mapping_key_length hk
  rcases hfs : parse_flags CConversionFlags.empty s1 with ⟨flags, s2⟩
  rw [hfs] at h
  have h2 : s2.length ≤ s1.length := parse_flags_length _ _ _ _ hfs
  simp only [] at h
  split at h
  · simp at h
  rename_i mfw s3 hq
  have h3 : s3.length ≤ s2.length := parse_quantity_length hq
  split at h
  · simp at h
  rename_i prec0 s4 hp
  have h4 : s4.length ≤ s3.length := parse_precision_length hp
  have h5 : (consume_length s4).length ≤ s4.length := consume_length_length s4
  split at h
  · simp at h
  rename_i format_type format_char s6 hft
  have h6 : s6.length ≤ (consume_length s4).length := parse_format_type_length hft
  simp only [Except.ok.injEq, Prod.mk.injEq] at h
  obtain ⟨-, hr⟩ := h
  subst hr
  omega

/-- The body of `fn parse` (lines 877-914): a left-to-right scan with one
character of lookahead. `literal` is the pending literal buffer, `partIndex`
the offset recorded on the next flushed literal part. `%%` emits a literal
`%`; a `%` followed by anything else flushes the buffer and hands over to
`CFormatSpec.parse`; a trailing lone `%` fails with `IncompleteFormat` at
`index + 1`. -/
def parseLoop (s : CStream) (literal : String) (partIndex : Nat) :
    Except ParsingError (List (Nat × CFormatPart)) :=
  match s with
  | [] => Except.ok (if literal.isEmpty then [] else [(partIndex, CFormatPart.Literal literal)])
  | (index, c) :: rest =>
    if c = '%' then
      match rest with
      | [] => Except.error (CFormatErrorType.IncompleteFormat, index + 1)
      | (index2, second) :: rest2 =>
        if second = '%' then parseLoop rest2 (literal.push '%') partIndex
        else
          match hspec : CFormatSpec.parse ((index2, second) :: rest2) with
          | Except.error e => Except.error e
          | Except.ok (spec, rest3) =>
            let flushed : List (Nat × CFormatPart) :=
              if literal.isEmpty then [] else [(partIndex, CFormatPart.Literal literal)]
            let partIndex2 := match rest3 with
              | (i, _) :: _ => i
              | [] => partIndex
            match parseLoop rest3 "" partIndex2 with
            | Except.error e => Except.error e
            | Except.ok tail => Except.ok (flushed ++ (index, CFormatPart.Spec spec) :: tail)
    else parseLoop rest (literal.push c) partIndex
termination_by s.length
decreasing_by
  · simp only [List.length_cons]
    omega
  · have := CFormatSpec.parse_length hspec
    simp only [List.length_cons] at this ⊢
    omega
  · simp only [List.length_cons]
    omega

/-- Embeds `fn parse` (lines 877-914). -/
def parse (s : CStream) : Except ParsingError (List (Nat × CFormatPart)) :=
  parseLoop s "" 0

structure CFormatString where
  parts : List (Nat × CFormatPart)
deriving DecidableEq

/-- The enumerated character stream `text.chars().enumerate()`. -/
def strStream (text : String) : CStream := text.toList.enum

/-- Embeds `impl FromStr for CFormatString` together with `CFormatString::parse`
(lines 722-742): parse the whole template, converting the `(typ, index)`
pair into a `CFormatError`. -/
def CFormatString.fromStr (text : String) : Except CFormatError CFormatString :=
  match parse (strStream text) with
  | Except.ok parts => Except.ok ⟨parts⟩
  | Except.error e => Except.error ⟨e.1, e.2⟩

/-- Embeds `impl FromStr for CFormatSpec` (lines 1062-1073): the text must start
with `%` (else `MissingModuloSign` at 1); the specifier is parsed from the
remainder and any leftover input is ignored. -/
def CFormatSpec.fromStr (text : String) : Except ParsingError CFormatSpec :=
  match strStream text with
  | (_, '%') :: rest =>
    match CFormatSpec.parse rest with
    | Except.error e => Except.error e
    | Except.ok (spec, _) => Except.ok spec
  | _ => Except.error (CFormatErrorType.MissingModuloSign, 1)

/-! ## Binder/Driver (`CFormatString::format`, lines 743-872, and the
identically-structured `CFormatBytes::format`, lines 585-714)

The host runtime's duck-typed `PyObjectRef` is modelled as a closed variant
of the object shapes the driver discriminates on; the specifier-rendering
call `format_spec.format(vm, obj)` (resp. `bytes_format`) is abstracted as
a `render` parameter, since it touches only host collaborators beyond the
pure renderer functions embedded above. -/

/-- Modelled from the spec: the host object model, restricted to the shapes
the binder discriminates (`isinstance` checks on int / tuple / dict);
`str` covers text objects and `other` every remaining object. -/
inductive PyObj where
  | int : Int → PyObj
  | str : String → PyObj
  | tuple : List PyObj → PyObj
  | dict : List (String × PyObj) → PyObj
  | other : PyObj

/-- Format-time errors surfaced through the host (`vm.new_type_error` etc.). -/
inductive FmtError where
  | typeError : String → FmtError
  | keyError : String → FmtError
  | overflowError : FmtError
deriving DecidableEq

def PyObj.isInt : PyObj → Bool
  | PyObj.int _ => true
  | _ => false

def PyObj.isTuple : PyObj → Bool
  | PyObj.tuple _ => true
  | _ => false

def PyObj.isDict : PyObj → Bool
  | PyObj.dict _ => true
  | _ => false

/-- Modelled from the spec: `int::get_value` — the `BigInt` payload of an
int object; only ever applied after an `isinstance(int)` check. -/
def PyObj.intValue : PyObj → Int
  | PyObj.int i => i
  | _ => 0

/-- Embeds `tuple::get_value` — the element list of a tuple object (the driver only
applies it to values normalized to tuples). -/
def tupleGetValue : PyObj → List PyObj
  | PyObj.tuple l => l
  | _ => []

/-- Modelled from the spec: the host `get_item` used for mapping keys —
dict key lookup, a missing key surfacing as a key error; on non-mapping
objects the host raises a type error (not exercised by these claims). -/
def PyObj.get_item : PyObj → String → Except FmtError PyObj
  | PyObj.dict l, key =>
    match l.lookup key with
    | some v => Except.ok v
    | none => Except.error (FmtError.keyError key)
  | _, _ => Except.error (FmtError.typeError "not indexable by string")

/-- The `?`-operator on `Result`: propagate an error, otherwise continue
with the payload. -/
def ebind {e a b : Type} (x : Except e a) (f : a → Except e b) : Except e b :=
  match x with
  | Except.error err => Except.error err
  | Except.ok v => f v

@[simp]
theorem ebind_ok {e a b : Type} (v : a) (f : a → Except e b) :
    ebind (Except.ok v) f = f v := rfl

@[simp]
theorem ebind_error {e a b : Type} (err : e) (f : a → Except e b) :
    ebind (Except.error err : Except e a) f = Except.error err := rfl

/-- Embeds `try_update_quantity_from_tuple` (lines 748-773): when the quantity is
the dynamic `*` marker, pop the next element, require it to be an int
(else "* wants int"), convert it through `isize` (`try_to_primitive`, which
overflows outside the `isize` range) and reinterpret `as usize`; an
exhausted stream is "not enough arguments for format string". -/
def try_update_quantity_from_tuple (elements : List PyObj) (q : Option CFormatQuantity)
    (tuple_index : Nat) : Except FmtError (Option CFormatQuantity × Nat) :=
  match q with
  | some CFormatQuantity.FromValuesTuple =>
    match elements with
    | width_obj :: _ =>
      let tuple_index := tuple_index + 1
      if !width_obj.isInt then Except.error (FmtError.typeError "* wants int")
      else
        let i := width_obj.intValue
        if i < isizeMin ∨ isizeMax < i then Except.error FmtError.overflowError
        else Except.ok (some (CFormatQuantity.Amount (usizeOfInt i)), tuple_index)
    | [] => Except.error (FmtError.typeError "not enough arguments for format string")
  | _ => Except.ok (q, tuple_index)

/-- The keyless-`Spec` branch of the driver loop (lines 826-853): resolve a
dynamic width from `elements = tuple.skip(tuple_index)`, then a dynamic
precision, then pop one more element as the value to render; returns the
specifier with its resolved quantities (the in-place mutation of the Rust
code), the value, and the advanced cursor. -/
def resolveSpecArgs (tupleVals : List PyObj) (sp : CFormatSpec) (tuple_index : Nat) :
    Except FmtError (CFormatSpec × PyObj × Nat) :=
  ebind (try_update_quantity_from_tuple (tupleVals.drop tuple_index) sp.min_field_width
      tuple_index) fun (w, ti1) =>
  ebind (try_update_quantity_from_tuple (tupleVals.drop ti1) sp.precision ti1)
      fun (p, ti2) =>
  match (tupleVals.drop ti2).head? with
  | some obj =>
    Except.ok ({ sp with min_field_width := w, precision := p }, obj, ti2 + 1)
  | none => Except.error (FmtError.typeError "not enough arguments for format string")

/-- The part-walking loop of the driver (lines 816-861): literals pass
through, keyed specs fetch by key, keyless specs consume positionally;
rendered pieces are concatenated in order and the cursor is threaded. -/
def formatParts (render : CFormatSpec → PyObj → Except FmtError String) (values : PyObj) :
    List (Nat × CFormatPart) → Nat → Except FmtError (String × Nat)
  | [], tuple_index => Except.ok ("", tuple_index)
  | (_, CFormatPart.Literal literal) :: rest, tuple_index =>
    ebind (formatParts render values rest tuple_index) fun (s, ti) =>
      Except.ok (literal ++ s, ti)
  | (_, CFormatPart.Spec sp) :: rest, tuple_index =>
    let fetched : Except FmtError (CFormatSpec × PyObj × Nat) :=
      match sp.mapping_key with
      | some key => ebind (values.get_item key) fun obj => Except.ok (sp, obj, tuple_index)
      | none => resolveSpecArgs (tupleGetValue values) sp tuple_index
    ebind fetched fun (sp2, obj, ti2) =>
    ebind (render sp2 obj) fun piece =>
    ebind (formatParts render values rest ti2) fun (s, ti3) =>
      Except.ok (piece ++ s, ti3)

/-- Embeds `CFormatString::format` (lines 743-872) / `CFormatBytes::format`
(lines 585-714): decide the binding mode, validate and normalize the
argument object, walk the parts, and check argument exhaustion. -/
def formatDriver (render : CFormatSpec → PyObj → Except FmtError String)
    (parts : List (Nat × CFormatPart)) (values_obj : PyObj) : Except FmtError String :=
  let num_specifiers := (parts.filter fun p => p.2.is_specifier).length
  let mapping_required := (parts.any fun p => p.2.has_key) &&
    ((parts.filter fun p => p.2.is_specifier).all fun p => p.2.has_key)
  let valuesE : Except FmtError PyObj :=
    if mapping_required then
      if !values_obj.isDict then Except.error (FmtError.typeError "format requires a mapping")
      else Except.ok values_obj
    else
      if num_specifiers = 0 &&
          !(values_obj.isTuple && (tupleGetValue values_obj).isEmpty) &&
          !values_obj.isDict then
        Except.error (FmtError.typeError "not all arguments converted during string formatting")
      else Except.ok (if !values_obj.isTuple then PyObj.tuple [values_obj] else values_obj)
  ebind valuesE fun values =>
  ebind (formatParts render values parts 0) fun (final_string, tuple_index) =>
  if !mapping_required && ((tupleGetValue values).get? tuple_index).isSome &&
      !values_obj.isDict then
    Except.error (FmtError.typeError "not all arguments converted during string formatting")
  else Except.ok final_string

/-! ## Helper lemmas -/

theorem String.mk_toList_self (s : String) : String.mk s.toList = s := rfl

theorem drop_eq_cons_of_getElem {α : Type} (l : List α) (n : Nat) (v : α)
    (h : l[n]? = some v) : l.drop n = v :: l.drop (n + 1) := by
  have hn : n < l.length := by
    by_contra hc
    rw [List.getElem?_eq_none (by omega)] at h
    exact absurd h (by simp)
  rw [List.drop_eq_getElem_cons hn]
  congr 1
  have := List.getElem?_eq_getElem hn
  rw [this] at h
  exact Option.some.injEq _ _ ▸ h

/-! ## C1: width invariant and the byte-path underflow -/

/-- The parsed form of a width-2 string specifier (`"%2s"`), used to
exercise `format_bytes` with a fixed width smaller than the content. -/
def c1ByteSpec : CFormatSpec :=
  { mapping_key := none, flags := CConversionFlags.empty,
    min_field_width := some (CFormatQuantity.Amount 2), precision := none,
    format_type := CFormatType.String CFormatPreconversor.Str, format_char := 's' }

/-- C1: the claim states that for the byte path too, a fixed width `w`
smaller than the content length `n` yields the unpadded content of length
`max n w = n`. The code computes the fill count as
`cmp::max(0, width - bytes.len())` on `usize`; for `w = 2` and the 5-byte
content `b"hello"` the subtraction underflows, so (release semantics) the
fill count wraps to `2 ^ 64 - 3` and the output length is `2 ^ 64 + 2`,
not `max 5 2 = 5` (a debug build panics at the subtraction instead). -/
theorem c1_format_bytes_width_underflow :
    (c1ByteSpec.format_bytes [104, 101, 108, 108, 111]).length = 2 ^ 64 + 2 ∧
    (c1ByteSpec.format_bytes [104, 101, 108, 108, 111]).length ≠ max 5 2 := by
  have hb : c1ByteSpec.format_bytes [104, 101, 108, 108, 111] =
      List.replicate (max 0 (usizeSub 2 5)) 32 ++ [104, 101, 108, 108, 111] := rfl
  have h : (c1ByteSpec.format_bytes [104, 101, 108, 108, 111]).length = 2 ^ 64 + 2 := by
    rw [hb, List.length_append, List.length_replicate]
    unfold usizeSub
    norm_num
  exact ⟨h, by rw [h]; norm_num⟩

/-! ## C9: the general float conversion always fails -/

/-- C9: rendering with the `%g`/`%G` conversion (`Float (General _)`)
always returns the explicit error "Not yet implemented for %g and %G",
never a fixed-point or exponential rendering, whatever the flags, width,
precision, sign of the value, or host float-formatting collaborators. -/
theorem c9_general_float_unimplemented :
    ∀ (spec : CFormatSpec) (cs : CFormatCase) (signPositive : Bool)
      (pointMag expMag : Nat → String),
      spec.format_type = CFormatType.Float (CFloatType.General cs) →
      spec.format_float signPositive pointMag expMag =
        Except.error "Not yet implemented for %g and %G" := by
  intro spec cs signPositive pointMag expMag h
  unfold CFormatSpec.format_float
  rw [h]

/-- The parsed form of `"%g"` (float conversions default the precision to
`Amount 6`). -/
def c9Spec : CFormatSpec :=
  { mapping_key := none, flags := CConversionFlags.empty, min_field_width := none,
    precision := some (CFormatQuantity.Amount 6),
    format_type := CFormatType.Float (CFloatType.General CFormatCase.Lowercase),
    format_char := 'g' }

theorem c9_general_float_unimplemented_witness :
    c9Spec.format_float true (fun _ => "") (fun _ => "") =
      Except.error "Not yet implemented for %g and %G" :=
  c9_general_float_unimplemented c9Spec CFormatCase.Lowercase true (fun _ => "")
    (fun _ => "") rfl

/-! ## C10: negative dynamic width/precision values -/

/-- C10: resolving a dynamic `*` width or precision from a negative integer
that fits in `isize` raises no error and does not touch the left-adjust
flag: the value is cast `as usize`, storing its two's-complement
reinterpretation `i + 2 ^ 64` as the resolved fixed amount. -/
theorem c10_negative_dynamic_quantity :
    ∀ (i : Int) (rest : List PyObj) (tuple_index : Nat),
      isizeMin ≤ i → i < 0 →
      try_update_quantity_from_tuple (PyObj.int i :: rest)
          (some CFormatQuantity.FromValuesTuple) tuple_index =
        Except.ok (some (CFormatQuantity.Amount (i + 2 ^ 64).toNat), tuple_index + 1) := by
  intro i rest tuple_index h1 h2
  unfold try_update_quantity_from_tuple
  have hv : PyObj.intValue (PyObj.int i) = i := rfl
  have hrange : ¬(PyObj.intValue (PyObj.int i) < isizeMin ∨
      isizeMax < PyObj.intValue (PyObj.int i)) := by
    rw [hv]
    unfold isizeMin at h1 ⊢
    unfold isizeMax
    omega
  simp only [PyObj.isInt, Bool.not_true, Bool.false_eq_true, if_false, hrange, if_neg,
    not_false_eq_true]
  have hcast : usizeOfInt (PyObj.intValue (PyObj.int i)) = (i + 2 ^ 64).toNat := by
    rw [hv]
    unfold usizeOfInt
    unfold isizeMin at h1
    omega
  rw [hcast]

theorem c10_negative_dynamic_quantity_witness :
    try_update_quantity_from_tuple [PyObj.int (-1)]
        (some CFormatQuantity.FromValuesTuple) 0 =
      Except.ok (some (CFormatQuantity.Amount ((-1 : Int) + 2 ^ 64).toNat), 0 + 1) :=
  c10_negative_dynamic_quantity (-1) [] 0 (by norm_num [isizeMin]) (by norm_num)

/-! ## C6: zero-pad vs left-adjust on numbers -/

/-- With left-adjust set, filling `s` with a prefix-length exclusion of
`t.length` and prepending `t` is the same as filling `t ++ s` with no
exclusion: both left-justify the content and append the fill. -/
theorem fill_string_left_adjust_append (spec : CFormatSpec)
    (h : spec.flags.left_adjust = true) (t s : String) :
    t ++ spec.fill_string s ' ' (some t.length) = spec.fill_string (t ++ s) ' ' none := by
  unfold CFormatSpec.fill_string
  simp only [Option.getD_some, Option.getD_none, String.length_append, Nat.add_zero, h,
    if_true]
  rw [Nat.add_comm s.length t.length]
  generalize CFormatSpec.compute_fill_string ' '
      ((match spec.min_field_width with
        | some (CFormatQuantity.Amount width) => max width (t.length + s.length)
        | _ => t.length + s.length) - (t.length + s.length)) = F
  by_cases hF : F.isEmpty
  · simp [hF]
  · simp [hF, String.append_assoc]

/-- C6: on a numeric conversion carrying both the `0` and `-` flags,
left-adjust wins — the rendering is identical to the same specifier with
the zero-pad flag cleared (space fill, left-justified); without `-`,
zero-padding inserts `0` between the sign/radix prefix and the digits.
Concrete checks: `"%-05d"` on 3 gives `"3    "`, `"%05d"` on 27 gives
`"00027"`, `"%+05d"` on 27 gives `"+0027"`. -/
theorem c6_zero_pad_left_adjust :
    (∀ (spec : CFormatSpec) (nt : CNumberType) (num : Int),
      spec.format_type = CFormatType.Number nt →
      spec.flags.zero_pad = true → spec.flags.left_adjust = true →
      spec.format_number num =
        { spec with flags := { spec.flags with zero_pad := false } }.format_number num) ∧
    (CFormatSpec.fromStr "%-05d").map (fun sp => sp.format_number 3) = Except.ok "3    " ∧
    (CFormatSpec.fromStr "%05d").map (fun sp => sp.format_number 27) = Except.ok "00027" ∧
    (CFormatSpec.fromStr "%+05d").map (fun sp => sp.format_number 27) = Except.ok "+0027" := by
  refine ⟨?_, rfl, rfl, rfl⟩
  intro spec nt num hft hz hl
  set spec2 : CFormatSpec := { spec with flags := { spec.flags with zero_pad := false } }
    with hspec2
  have hsign : spec2.flags.sign_string = spec.flags.sign_string := rfl
  have hfillf : spec2.fill_string = spec.fill_string := rfl
  have hft2 : spec2.format_type = spec.format_type := rfl
  have halt : spec2.flags.alternate_form = spec.flags.alternate_form := rfl
  have hzp2 : spec2.flags.zero_pad = false := rfl
  unfold CFormatSpec.format_number
  simp only [hsign, hfillf, hft2, halt, hzp2, hz, hl, Bool.not_true, if_false, if_true,
    Bool.false_eq_true]
  exact fill_string_left_adjust_append spec hl _ _

/-- The parsed form of `"%-05d"`: both the zero-pad and left-adjust flags
set, fixed width 5. -/
def c6Spec : CFormatSpec :=
  { mapping_key := none,
    flags := { alternate_form := false, zero_pad := true, left_adjust := true,
               blank_sign := false, sign_char := false },
    min_field_width := some (CFormatQuantity.Amount 5), precision := none,
    format_type := CFormatType.Number CNumberType.Decimal, format_char := 'd' }

theorem c6_zero_pad_left_adjust_witness :
    c6Spec.format_number 3 =
      { c6Spec with flags := { c6Spec.flags with zero_pad := false } }.format_number 3 :=
  c6_zero_pad_left_adjust.1 c6Spec CNumberType.Decimal 3 rfl rfl rfl

/-! ## C7: precision truncation counts Unicode scalar values -/

/-- C7: with a fixed precision `p` (and no minimum width), a string
conversion renders exactly the first `p` Unicode scalar values of the
converted string — a string of at most `p` scalars is unchanged, since
`List.take p` is then the identity. The concrete check truncates an
8-scalar string of 3-byte characters with `"%.2s"` and obtains its first
2 scalars. -/
theorem c7_precision_truncation_scalars :
    (∀ (spec : CFormatSpec) (p : Nat) (s : String),
      spec.precision = some (CFormatQuantity.Amount p) → spec.min_field_width = none →
      spec.format_string s = String.mk (s.toList.take p)) ∧
    (CFormatSpec.fromStr "%.2s").map (fun sp => sp.format_string "❤❤❤❤❤❤❤❤") =
      Except.ok "❤❤" := by
  refine ⟨?_, rfl⟩
  intro spec p s hp hw
  unfold CFormatSpec.format_string CFormatSpec.format_string_with_precision
    CFormatSpec.fill_string CFormatSpec.compute_fill_string
  simp only [hp, hw, Option.getD_none, Nat.add_zero, Nat.sub_self, List.replicate_zero]
  rw [show (String.mk [] : String).isEmpty = true from rfl]
  simp only [Bool.not_true, Bool.false_eq_true, if_false]
  split
  · rfl
  · rename_i hgt
    rw [show String.mk (s.toList.take p) = String.mk s.toList from by
      rw [List.take_of_length_le (by simpa using Nat.le_of_not_lt hgt)]]
    exact (String.mk_toList_self s).symm

/-- The parsed form of `"%.2s"`. -/
def c7Spec : CFormatSpec :=
  { mapping_key := none, flags := CConversionFlags.empty, min_field_width := none,
    precision := some (CFormatQuantity.Amount 2),
    format_type := CFormatType.String CFormatPreconversor.Str, format_char := 's' }

theorem c7_precision_truncation_scalars_witness :
    c7Spec.format_string "❤❤❤❤❤❤❤❤" = String.mk ("❤❤❤❤❤❤❤❤".toList.take 2) :=
  c7_precision_truncation_scalars.1 c7Spec 2 "❤❤❤❤❤❤❤❤" rfl rfl

/-! ## C8: overflow-checked width/precision digit accumulation -/

/-- C8: the digit-accumulation loop behind width/precision parsing is
overflow-checked. First conjunct: if folding the next digit in would
exceed the `isize` range, the loop fails with `IntTooBig` at exactly that
digit's offset. Second conjunct: a successful run never wraps — the
result is at least the starting accumulator and stays within the `isize`
bound. Third conjunct: parsing the 19-digit width `9223372036854775808`
(= 2^63) in `"%9223372036854775808d"` fails with `IntTooBig` at offset 19,
the offset of its final digit. -/
theorem c8_quantity_overflow_checked :
    (∀ (num : Int) (index : Nat) (d : Char) (rest : CStream),
      0 ≤ num → d.isDigit = true → isizeMax < num * 10 + ((d.toNat - 48 : Nat) : Int) →
      parse_quantity_digits num ((index, d) :: rest) =
        Except.error (CFormatErrorType.IntTooBig, index)) ∧
    (∀ (s : CStream) (num num' : Int) (rest : CStream),
      0 ≤ num → num ≤ isizeMax → parse_quantity_digits num s = Except.ok (num', rest) →
      num ≤ num' ∧ num' ≤ isizeMax) ∧
    CFormatSpec.fromStr "%9223372036854775808d" =
      Except.error (CFormatErrorType.IntTooBig, 19) := by
  refine ⟨?_, ?_, rfl⟩
  · intro num index d rest h0 hd hover
    unfold parse_quantity_digits
    rw [hd]
    simp only [if_true]
    unfold checkedMul
    split
    · rfl
    · rename_i m hmul
      split at hmul
      · exact absurd hmul (by simp)
      · simp only [Option.some.injEq] at hmul
        subst hmul
        rw [show checkedAdd (num * 10) ((d.toNat - 48 : Nat) : Int) = none from by
          unfold checkedAdd
          rw [if_pos (Or.inr hover)]]
  · intro s
    induction s with
    | nil =>
      intro num num' rest h0 hmax h
      simp only [parse_quantity_digits, Except.ok.injEq, Prod.mk.injEq] at h
      obtain ⟨hn, -⟩ := h
      subst hn
      exact ⟨Int.le_refl _, hmax⟩
    | cons p tl ih =>
      intro num num' rest h0 hmax h
      obtain ⟨index, c⟩ := p
      simp only [parse_quantity_digits] at h
      split at h
      · split at h
        · exact absurd h (by simp)
        · rename_i m hm
          split at h
          · exact absurd h (by simp)
          · rename_i num2 hadd
            unfold checkedMul at hm
            unfold checkedAdd at hadd
            split at hm
            · exact absurd hm (by simp)
            · rename_i hmr
              split at hadd
              · exact absurd hadd (by simp)
              · rename_i har
                simp only [Option.some.injEq] at hm hadd
                subst hm
                subst hadd
                have hc : (0 : Int) ≤ ((c.toNat - 48 : Nat) : Int) := Int.ofNat_nonneg _
                have h2 : num ≤ num * 10 + ((c.toNat - 48 : Nat) : Int) := by nlinarith
                have h3 := ih (num * 10 + ((c.toNat - 48 : Nat) : Int)) num' rest
                  (by omega) (by omega) h
                exact ⟨Int.le_trans h2 h3.1, h3.2⟩
      · simp only [Except.ok.injEq, Prod.mk.injEq] at h
        obtain ⟨hn, -⟩ := h
        subst hn
        exact ⟨Int.le_refl _, hmax⟩

theorem c8_quantity_overflow_checked_witness :
    parse_quantity_digits 922337203685477580 [(19, '8')] =
      Except.error (CFormatErrorType.IntTooBig, 19) :=
  c8_quantity_overflow_checked.1 922337203685477580 19 '8' [] (by norm_num) (by decide)
    (by decide)

/-! ## C2: IncompleteFormat offsets -/

/-- A stream of non-`%` characters followed by a lone `%` at offset `i`
always fails with `IncompleteFormat` at `i + 1`, whatever literal buffer
and part index are pending. -/
theorem parseLoop_trailing_percent :
    ∀ (pre : CStream) (literal : String) (partIndex i : Nat),
      (∀ p ∈ pre, p.2 ≠ '%') →
      parseLoop (pre ++ [(i, '%')]) literal partIndex =
        Except.error (CFormatErrorType.IncompleteFormat, i + 1) := by
  intro pre
  induction pre with
  | nil =>
    intro literal partIndex i h
    rw [List.nil_append, parseLoop]
    simp
  | cons p rest ih =>
    intro literal partIndex i h
    obtain ⟨j, c⟩ := p
    have hc : c ≠ '%' := h (j, c) (by simp)
    rw [List.cons_append, parseLoop.eq_def]
    simp only [hc, if_false, reduceCtorEq]
    exact ih _ _ _ fun q hq => h q (List.mem_cons_of_mem _ hq)

/-- C2: when the input ends before a conversion character is read, parsing
fails with `IncompleteFormat`, and the reported offset is `offset + 1` of
the `%` for a template ending in a lone `%` (first conjunct, for any
`%`-free prefix), but `0` — not the current offset — when the input ends
in the middle of a specifier: the exhausted iterator's `peek()` yields no
offset and the code falls back to `0` (second conjunct at the
`parse_format_type` level, third conjunct for the template `"%5"`). -/
theorem c2_incomplete_format_offsets :
    (∀ s : String, (∀ c ∈ s.toList, c ≠ '%') →
      CFormatString.fromStr (s ++ "%") =
        Except.error ⟨CFormatErrorType.IncompleteFormat, s.length + 1⟩) ∧
    parse_format_type [] = Except.error (CFormatErrorType.IncompleteFormat, 0) ∧
    CFormatString.fromStr "%5" =
      Except.error ⟨CFormatErrorType.IncompleteFormat, 0⟩ := by
  refine ⟨?_, rfl, ?_⟩
  · intro s h
    unfold CFormatString.fromStr parse strStream
    have hlist : (s ++ "%").toList = s.toList ++ ['%'] := by
      show (s ++ "%").data = s.data ++ "%".data
      exact String.data_append s "%"
    rw [hlist]
    rw [show (s.toList ++ ['%']).enum = s.toList.enum ++ [(s.toList.length, '%')] from by
      unfold List.enum
      rw [List.enumFrom_append]
      simp]
    rw [parseLoop_trailing_percent _ _ _ _ ?hpre]
    case hpre =>
      intro p hp
      match p, hp with
      | (idx, ch), hp =>
        obtain ⟨-, -, hch⟩ := List.mem_enumFrom hp
        show ch ≠ '%'
        rw [hch]
        exact h _ (List.getElem_mem _)
    rfl
  · unfold CFormatString.fromStr parse
    rw [show strStream "%5" = [(0, '%'), (1, '5')] from rfl]
    rw [parseLoop]
    rfl

theorem c2_incomplete_format_offsets_witness :
    CFormatString.fromStr ("Hello " ++ "%") =
      Except.error ⟨CFormatErrorType.IncompleteFormat, "Hello ".length + 1⟩ :=
  c2_incomplete_format_offsets.1 "Hello " (by decide)

/-- C2 counterexample: for the template `"%5"` — input ending in the middle
of a specifier after the width digit — the claim predicts the current
offset 2 (one past the last consumed character), but the code reports
offset 0. -/
theorem c2_mid_specifier_offset_zero :
    CFormatString.fromStr "%5" = Except.error ⟨CFormatErrorType.IncompleteFormat, 0⟩ ∧
    CFormatString.fromStr "%5" ≠ Except.error ⟨CFormatErrorType.IncompleteFormat, 2⟩ := by
  have h0 : CFormatString.fromStr "%5" =
      Except.error ⟨CFormatErrorType.IncompleteFormat, 0⟩ := by
    unfold CFormatString.fromStr parse
    rw [show strStream "%5" = [(0, '%'), (1, '5')] from rfl]
    rw [parseLoop]
    rfl
  refine ⟨h0, ?_⟩
  rw [h0]
  simp

/-! ## C4: dynamic `*` width/precision resolution order -/

/-- C4: for a keyless specifier bound positionally, a dynamic width is
resolved first, then a dynamic precision, each popping the next positional
element — a non-integer element fails with "* wants int" (first conjunct),
an exhausted stream with "not enough arguments for format string" (second
conjunct) — and only after both resolutions is one more element popped as
the value to render (third conjunct: width takes the element at the
cursor, precision the next, the value the one after, leaving the cursor
advanced by 3); exhaustion at the value pop also yields "not enough
arguments for format string" (fourth conjunct). -/
theorem c4_dynamic_star_resolution :
    (∀ (vals : List PyObj) (sp : CFormatSpec) (ti : Nat) (v : PyObj),
      sp.min_field_width = some CFormatQuantity.FromValuesTuple →
      vals[ti]? = some v → v.isInt = false →
      resolveSpecArgs vals sp ti = Except.error (FmtError.typeError "* wants int")) ∧
    (∀ (vals : List PyObj) (sp : CFormatSpec) (ti : Nat),
      sp.min_field_width = some CFormatQuantity.FromValuesTuple →
      vals[ti]? = none →
      resolveSpecArgs vals sp ti =
        Except.error (FmtError.typeError "not enough arguments for format string")) ∧
    (∀ (vals : List PyObj) (sp : CFormatSpec) (ti : Nat) (a b : Int) (v : PyObj),
      sp.min_field_width = some CFormatQuantity.FromValuesTuple →
      sp.precision = some CFormatQuantity.FromValuesTuple →
      vals[ti]? = some (PyObj.int a) → isizeMin ≤ a → a ≤ isizeMax →
      vals[ti + 1]? = some (PyObj.int b) → isizeMin ≤ b → b ≤ isizeMax →
      vals[ti + 2]? = some v →
      resolveSpecArgs vals sp ti =
        Except.ok
          ({ sp with
             min_field_width := some (CFormatQuantity.Amount (usizeOfInt a)),
             precision := some (CFormatQuantity.Amount (usizeOfInt b)) },
           v, ti + 3)) ∧
    (∀ (vals : List PyObj) (sp : CFormatSpec) (ti : Nat) (a b : Int),
      sp.min_field_width = some CFormatQuantity.FromValuesTuple →
      sp.precision = some CFormatQuantity.FromValuesTuple →
      vals[ti]? = some (PyObj.int a) → isizeMin ≤ a → a ≤ isizeMax →
      vals[ti + 1]? = some (PyObj.int b) → isizeMin ≤ b → b ≤ isizeMax →
      vals[ti + 2]? = none →
      resolveSpecArgs vals sp ti =
        Except.error (FmtError.typeError "not enough arguments for format string")) := by
  refine ⟨?_, ?_, ?_, ?_⟩
  · intro vals sp ti v hw hv hint
    unfold resolveSpecArgs
    rw [drop_eq_cons_of_getElem _ _ _ hv, hw]
    unfold try_update_quantity_from_tuple
    simp [hint]
  · intro vals sp ti hw hv
    unfold resolveSpecArgs
    rw [List.drop_eq_nil_of_le (by
      rw [← List.getElem?_eq_none_iff]
      exact hv), hw]
    unfold try_update_quantity_from_tuple
    simp
  · intro vals sp ti a b v hw hp hva ha1 ha2 hvb hb1 hb2 hvv
    unfold resolveSpecArgs
    rw [drop_eq_cons_of_getElem _ _ _ hva, hw]
    rw [show try_update_quantity_from_tuple (PyObj.int a :: vals.drop (ti + 1))
        (some CFormatQuantity.FromValuesTuple) ti =
        Except.ok (some (CFormatQuantity.Amount (usizeOfInt a)), ti + 1) from by
      unfold try_update_quantity_from_tuple
      simp only [PyObj.isInt, Bool.not_true, Bool.false_eq_true, if_false]
      rw [if_neg (by
        show ¬((PyObj.int a).intValue < isizeMin ∨ isizeMax < (PyObj.int a).intValue)
        rw [show (PyObj.int a).intValue = a from rfl]
        omega)]
      rfl]
    simp only [ebind_ok]
    rw [drop_eq_cons_of_getElem _ _ _ hvb, hp]
    rw [show try_update_quantity_from_tuple (PyObj.int b :: vals.drop (ti + 1 + 1))
        (some CFormatQuantity.FromValuesTuple) (ti + 1) =
        Except.ok (some (CFormatQuantity.Amount (usizeOfInt b)), ti + 1 + 1) from by
      unfold try_update_quantity_from_tuple
      simp only [PyObj.isInt, Bool.not_true, Bool.false_eq_true, if_false]
      rw [if_neg (by
        show ¬((PyObj.int b).intValue < isizeMin ∨ isizeMax < (PyObj.int b).intValue)
        rw [show (PyObj.int b).intValue = b from rfl]
        omega)]
      rfl]
    simp only [ebind_ok]
    rw [drop_eq_cons_of_getElem _ _ _ (show vals[ti + 1 + 1]? = some v from hvv)]
    rfl
  · intro vals sp ti a b hw hp hva ha1 ha2 hvb hb1 hb2 hvv
    unfold resolveSpecArgs
    rw [drop_eq_cons_of_getElem _ _ _ hva, hw]
    rw [show try_update_quantity_from_tuple (PyObj.int a :: vals.drop (ti + 1))
        (some CFormatQuantity.FromValuesTuple) ti =
        Except.ok (some (CFormatQuantity.Amount (usizeOfInt a)), ti + 1) from by
      unfold try_update_quantity_from_tuple
      simp only [PyObj.isInt, Bool.not_true, Bool.false_eq_true, if_false]
      rw [if_neg (by
        show ¬((PyObj.int a).intValue < isizeMin ∨ isizeMax < (PyObj.int a).intValue)
        rw [show (PyObj.int a).intValue = a from rfl]
        omega)]
      rfl]
    simp only [ebind_ok]
    rw [drop_eq_cons_of_getElem _ _ _ hvb, hp]
    rw [show try_update_quantity_from_tuple (PyObj.int b :: vals.drop (ti + 1 + 1))
        (some CFormatQuantity.FromValuesTuple) (ti + 1) =
        Except.ok (some (CFormatQuantity.Amount (usizeOfInt b)), ti + 1 + 1) from by
      unfold try_update_quantity_from_tuple
      simp only [PyObj.isInt, Bool.not_true, Bool.false_eq_true, if_false]
      rw [if_neg (by
        show ¬((PyObj.int b).intValue < isizeMin ∨ isizeMax < (PyObj.int b).intValue)
        rw [show (PyObj.int b).intValue = b from rfl]
        omega)]
      rfl]
    simp only [ebind_ok]
    rw [List.drop_eq_nil_of_le (by
      rw [← List.getElem?_eq_none_iff]
      exact hvv)]
    rfl

/-- A specifier with both dynamic width and dynamic precision (the parsed
form of `"%*.*s"`). -/
def c4Spec : CFormatSpec :=
  { mapping_key := none, flags := CConversionFlags.empty,
    min_field_width := some CFormatQuantity.FromValuesTuple,
    precision := some CFormatQuantity.FromValuesTuple,
    format_type := CFormatType.String CFormatPreconversor.Str, format_char := 's' }

theorem c4_dynamic_star_resolution_witness :
    resolveSpecArgs [PyObj.int 5, PyObj.int 2, PyObj.str "x"] c4Spec 0 =
      Except.ok ({ c4Spec with
          min_field_width := some (CFormatQuantity.Amount (usizeOfInt 5)),
          precision := some (CFormatQuantity.Amount (usizeOfInt 2)) },
        PyObj.str "x", 0 + 3) :=
  c4_dynamic_star_resolution.2.2.1 [PyObj.int 5, PyObj.int 2, PyObj.str "x"] c4Spec 0 5 2
    (PyObj.str "x") rfl rfl rfl (by norm_num [isizeMin]) (by norm_num [isizeMax]) rfl
    (by norm_num [isizeMin]) (by norm_num [isizeMax]) rfl

/-! ## C3: binding-mode decision and zero-specifier argument validation -/

/-- A part that is not a specifier (a literal) carries no mapping key. -/
theorem has_key_false_of_not_specifier {part : CFormatPart}
    (h : part.is_specifier = false) : part.has_key = false := by
  cases part with
  | Literal lit => rfl
  | Spec sp => simp [CFormatPart.is_specifier] at h

/-- Walking a list of literal-only parts always succeeds, leaving the
cursor untouched. -/
theorem formatParts_literals (render : CFormatSpec → PyObj → Except FmtError String)
    (values : PyObj) :
    ∀ (parts : List (Nat × CFormatPart)) (ti : Nat),
      (∀ p ∈ parts, p.2.is_specifier = false) →
      ∃ s, formatParts render values parts ti = Except.ok (s, ti) := by
  intro parts
  induction parts with
  | nil => exact fun ti _ => ⟨"", rfl⟩
  | cons p rest ih =>
    intro ti h
    obtain ⟨i, part⟩ := p
    match part, h (i, part) (List.mem_cons_self _ _) with
    | CFormatPart.Literal lit, _ =>
      obtain ⟨s, hs⟩ := ih ti fun q hq => h q (List.mem_cons_of_mem _ hq)
      refine ⟨lit ++ s, ?_⟩
      unfold formatParts
      rw [hs, ebind_ok]
    | CFormatPart.Spec sp, hfalse => simp [CFormatPart.is_specifier] at hfalse

/-- C3: binding is by-name exactly when some specifier has a mapping key
and every specifier has one; then a non-mapping argument object fails with
"format requires a mapping" (first conjunct). Otherwise binding is
positional, and a zero-specifier template rejects every argument other
than an empty tuple or a mapping with "not all arguments converted during
string formatting" (second conjunct), while accepting an empty tuple
(third conjunct) and any mapping (fourth conjunct). -/
theorem c3_binding_mode_decision :
    (∀ (render : CFormatSpec → PyObj → Except FmtError String)
       (parts : List (Nat × CFormatPart)) (values_obj : PyObj),
      (∃ p ∈ parts, p.2.has_key = true) →
      (∀ p ∈ parts, p.2.is_specifier = true → p.2.has_key = true) →
      values_obj.isDict = false →
      formatDriver render parts values_obj =
        Except.error (FmtError.typeError "format requires a mapping")) ∧
    (∀ (render : CFormatSpec → PyObj → Except FmtError String)
       (parts : List (Nat × CFormatPart)) (values_obj : PyObj),
      (∀ p ∈ parts, p.2.is_specifier = false) →
      values_obj.isDict = false → values_obj ≠ PyObj.tuple [] →
      formatDriver render parts values_obj =
        Except.error
          (FmtError.typeError "not all arguments converted during string formatting")) ∧
    (∀ (render : CFormatSpec → PyObj → Except FmtError String)
       (parts : List (Nat × CFormatPart)),
      (∀ p ∈ parts, p.2.is_specifier = false) →
      ∃ out, formatDriver render parts (PyObj.tuple []) = Except.ok out) ∧
    (∀ (render : CFormatSpec → PyObj → Except FmtError String)
       (parts : List (Nat × CFormatPart)) (d : List (String × PyObj)),
      (∀ p ∈ parts, p.2.is_specifier = false) →
      ∃ out, formatDriver render parts (PyObj.dict d) = Except.ok out) := by
  refine ⟨?_, ?_, ?_, ?_⟩
  · intro render parts values_obj hex hall hdict
    unfold formatDriver
    have hmap : ((parts.any fun p => p.2.has_key) &&
        ((parts.filter fun p => p.2.is_specifier).all fun p => p.2.has_key)) = true := by
      rw [Bool.and_eq_true, List.any_eq_true, List.all_eq_true]
      refine ⟨hex, fun p hp => ?_⟩
      rw [List.mem_filter] at hp
      exact hall p hp.1 hp.2
    rw [hmap]
    simp [hdict]
  · intro render parts values_obj hspec hdict hne
    unfold formatDriver
    have hany : (parts.any fun p => p.2.has_key) = false := by
      rw [List.any_eq_false]
      intro p hp
      rw [has_key_false_of_not_specifier (hspec p hp)]
      simp
    have hfil : (parts.filter fun p => p.2.is_specifier) = [] := by
      rw [List.filter_eq_nil_iff]
      intro p hp
      rw [hspec p hp]
      simp
    rw [hany, hfil]
    have hcond : (values_obj.isTuple && (tupleGetValue values_obj).isEmpty) = false := by
      match values_obj, hne with
      | PyObj.int i, _ => rfl
      | PyObj.str st, _ => rfl
      | PyObj.other, _ => rfl
      | PyObj.dict d, _ => rfl
      | PyObj.tuple l, hne =>
        match l, hne with
        | [], hne => exact absurd rfl hne
        | q :: tl, _ => rfl
    simp [hcond, hdict]
  · intro render parts hspec
    obtain ⟨out, hout⟩ := formatParts_literals render (PyObj.tuple []) parts 0 hspec
    refine ⟨out, ?_⟩
    unfold formatDriver
    have hany : (parts.any fun p => p.2.has_key) = false := by
      rw [List.any_eq_false]
      intro p hp
      rw [has_key_false_of_not_specifier (hspec p hp)]
      simp
    rw [hany]
    simp [hout, PyObj.isTuple, PyObj.isDict, tupleGetValue]
  · intro render parts d hspec
    obtain ⟨out, hout⟩ :=
      formatParts_literals render (PyObj.tuple [PyObj.dict d]) parts 0 hspec
    refine ⟨out, ?_⟩
    unfold formatDriver
    have hany : (parts.any fun p => p.2.has_key) = false := by
      rw [List.any_eq_false]
      intro p hp
      rw [has_key_false_of_not_specifier (hspec p hp)]
      simp
    rw [hany]
    simp [hout, PyObj.isTuple, PyObj.isDict, tupleGetValue]

/-- A keyed decimal specifier, the parsed form of `"%(amount)d"`. -/
def c3KeySpec : CFormatSpec :=
  { mapping_key := some "amount", flags := CConversionFlags.empty, min_field_width := none,
    precision := none, format_type := CFormatType.Number CNumberType.Decimal,
    format_char := 'd' }

theorem c3_binding_mode_decision_witness :
    formatDriver (fun _ _ => Except.ok "") [(0, CFormatPart.Spec c3KeySpec)]
        (PyObj.tuple [PyObj.int 5]) =
      Except.error (FmtError.typeError "format requires a mapping") :=
  c3_binding_mode_decision.1 (fun _ _ => Except.ok "") [(0, CFormatPart.Spec c3KeySpec)]
    (PyObj.tuple [PyObj.int 5]) ⟨(0, CFormatPart.Spec c3KeySpec), by simp, rfl⟩
    (by intro p hp _; simp at hp; rw [hp]; rfl) rfl

/-! ## C5: the trailing-arguments exhaustion check -/

/-- C5: in positional mode (`mapping_required` false), when the part walk
succeeds leaving the cursor strictly inside the normalized tuple, the call
fails with "not all arguments converted during string formatting" (first
conjunct); when the original argument object was itself a mapping, the
walk's result is returned as-is and the exhaustion check is skipped
(second conjunct — the normalized tuple `[dict]` may be unconsumed). -/
theorem c5_exhaustion_check :
    (∀ (render : CFormatSpec → PyObj → Except FmtError String)
       (parts : List (Nat × CFormatPart)) (vals : List PyObj) (s : String) (ti : Nat),
      ((parts.any fun p => p.2.has_key) &&
        ((parts.filter fun p => p.2.is_specifier).all fun p => p.2.has_key)) = false →
      formatParts render (PyObj.tuple vals) parts 0 = Except.ok (s, ti) →
      ti < vals.length →
      formatDriver render parts (PyObj.tuple vals) =
        Except.error
          (FmtError.typeError "not all arguments converted during string formatting")) ∧
    (∀ (render : CFormatSpec → PyObj → Except FmtError String)
       (parts : List (Nat × CFormatPart)) (d : List (String × PyObj)) (s : String) (ti : Nat),
      ((parts.any fun p => p.2.has_key) &&
        ((parts.filter fun p => p.2.is_specifier).all fun p => p.2.has_key)) = false →
      formatParts render (PyObj.tuple [PyObj.dict d]) parts 0 = Except.ok (s, ti) →
      formatDriver render parts (PyObj.dict d) = Except.ok s) := by
  constructor
  · intro render parts vals s ti hmap hloop hti
    unfold formatDriver
    rw [hmap]
    have hvne : vals.isEmpty = false := by
      match vals, hti with
      | q :: tl, _ => rfl
    have hsome : (vals.get? ti).isSome = true := by
      rw [List.get?_eq_getElem?, List.getElem?_eq_getElem hti]
      rfl
    by_cases hnum : (parts.filter fun p => p.2.is_specifier).length = 0
    · simp [hnum, hvne, PyObj.isTuple, PyObj.isDict, tupleGetValue]
    · simp [hnum, hvne, hloop, hsome, hti, PyObj.isTuple, PyObj.isDict, tupleGetValue]
  · intro render parts d s ti hmap hloop
    unfold formatDriver
    rw [hmap]
    simp [hloop, PyObj.isTuple, PyObj.isDict, tupleGetValue]

/-- A plain keyless decimal specifier (`"%d"`). -/
def c5Spec : CFormatSpec :=
  { mapping_key := none, flags := CConversionFlags.empty, min_field_width := none,
    precision := none, format_type := CFormatType.Number CNumberType.Decimal,
    format_char := 'd' }

theorem c5_exhaustion_check_witness :
    formatDriver (fun _ _ => Except.ok "1") [(0, CFormatPart.Spec c5Spec)]
        (PyObj.tuple [PyObj.int 1, PyObj.int 2]) =
      Except.error
        (FmtError.typeError "not all arguments converted during string formatting") :=
  c5_exhaustion_check.1 (fun _ _ => Except.ok "1") [(0, CFormatPart.Spec c5Spec)]
    [PyObj.int 1, PyObj.int 2] "1" 1 rfl rfl (by norm_num)
